import Mathlib

/-!
Shallow embedding of the querygpt-backend server (src/server.js): the
in-memory chat-session store with lazy TTL expiry, the POST /api/chat and
POST /api/chat/end handlers, and the GET /api/jira/issue key validation.
JavaScript values appearing in request bodies are modelled by `JsVal`;
the session map is an association list keyed by the session-id string;
the Gemini SDK is modelled as an opaque `Engine` whose calls may fail.
-/

/-- A JavaScript value as it can appear in a parsed JSON request body field. -/
inductive JsVal where
  | str (s : String)
  | num (n : Int)
  | jsBool (b : Bool)
  | null
  | undef
deriving DecidableEq, Repr

/-- JavaScript truthiness of a `JsVal` (as used by `!message`, `sessionId && …`). -/
def jsTruthy : JsVal → Bool
  | JsVal.str s => s ≠ ""
  | JsVal.num n => n ≠ 0
  | JsVal.jsBool b => b
  | JsVal.null => false
  | JsVal.undef => false

/-- `typeof v === "string"`. -/
def jsIsString : JsVal → Bool
  | JsVal.str _ => true
  | _ => false

/-- Extract the string payload (only used after `jsIsString` held). -/
def jsAsString : JsVal → String
  | JsVal.str s => s
  | _ => ""

/-- One entry of the chat-session map: `{ chat, lastUsed }` (src/server.js line 135).
The conversation handle is an opaque numeric identifier; `lastUsed` is a
millisecond timestamp as produced by `Date.now()`. -/
structure SessionData where
  chat : Nat
  lastUsed : Int
deriving DecidableEq, Repr

/-- The `chatSessions` JS `Map`, modelled as an insertion-ordered association
list with (in reachable states) unique keys. -/
abbrev Store : Type := List (String × SessionData)

/-- `chatSessions.get(id)`: first entry with the given key. -/
def storeGet : Store → String → Option SessionData
  | [], _ => none
  | p :: rest, s => if p.1 = s then some p.2 else storeGet rest s

/-- `chatSessions.set(id, d)`: replace in place if the key exists, else append. -/
def storeSet : Store → String → SessionData → Store
  | [], s, d => [(s, d)]
  | p :: rest, s, d => if p.1 = s then (s, d) :: rest else p :: storeSet rest s d

/-- `chatSessions.delete(id)`: remove the entry with the given key. -/
def storeDelete : Store → String → Store
  | [], _ => []
  | p :: rest, s => if p.1 = s then rest else p :: storeDelete rest s

/-- `SESSION_TTL_MS = 60 * 60 * 1000` (src/server.js line 87). -/
def SESSION_TTL_MS : Int := 60 * 60 * 1000

/-- `pruneExpiredSessions` (src/server.js lines 92–97): delete every session
with `now - data.lastUsed > SESSION_TTL_MS`, keep the rest untouched. -/
def pruneExpiredSessions (now : Int) (st : Store) : Store :=
  st.filter (fun p => if now - p.2.lastUsed > SESSION_TTL_MS then false else true)

/-- An error thrown by an SDK call: the handler reads `err?.status` and
`err?.message`, each possibly absent (src/server.js lines 141–142). -/
structure EngErr where
  status : Option Int
  message : Option String
deriving DecidableEq, Repr

/-- The Gemini SDK surface the handler uses: `ai.chats.create({model, config})`
returning a chat handle, and `chat.sendMessage({message})` returning a
response whose `text` may be nullish. Either call may throw. -/
structure Engine where
  create : Option String → Except EngErr Nat
  send : Nat → String → Except EngErr (Option String)

/-- Outcome of a POST /api/chat request. `ok` is the 200 `{reply, sessionId}`
body; `badRequest` is the 400 validation response (line 109); `serverError`
is the catch-branch response `res.status(err?.status ?? 500)` (lines
141–143) or the missing-key 500 (line 102), and carries no sessionId. -/
inductive ChatResult where
  | ok (reply : String) (sessionId : String)
  | badRequest (error : String)
  | serverError (status : Int) (error : String)
deriving DecidableEq, Repr

/-- The catch branch: `status = err?.status ?? 500`, `msg = err?.message ?? …`. -/
def engineErrorResult (e : EngErr) : ChatResult :=
  ChatResult.serverError (e.status.getD 500) (e.message.getD "Gemini request failed.")

/-- The fields destructured from the /api/chat body (line 107); a missing
field is `undef`. -/
structure ChatRequest where
  message : JsVal
  sessionId : JsVal
  systemInstruction : JsVal
deriving DecidableEq, Repr

/-- `const existing = sessionId && chatSessions.get(sessionId)` (line 118):
only a truthy string key can hit the string-keyed map. -/
def sessionLookup (sid : JsVal) (st : Store) : Option (String × SessionData) :=
  match sid with
  | JsVal.str s => if s = "" then none else (storeGet st s).map (fun d => (s, d))
  | _ => none

/-- `systemInstruction && typeof systemInstruction === "string" ?
{systemInstruction} : {}` (lines 125–127). -/
def sysInstructionConfig : JsVal → Option String
  | JsVal.str si => if si = "" then none else some si
  | _ => none

/-- The POST /api/chat handler (src/server.js lines 99–145). `apiKey` is
whether `GEMINI_API_KEY` is set; `freshId` is the value `crypto.randomUUID()`
would return; `tPrune` is `Date.now()` inside `pruneExpiredSessions` and
`tUse` the `Date.now()` used for `lastUsed`. Returns the HTTP outcome and
the store after the request. -/
def chatHandler (apiKey : Bool) (eng : Engine) (freshId : String)
    (tPrune tUse : Int) (req : ChatRequest) (st : Store) : ChatResult × Store :=
  if apiKey = false then
    (ChatResult.serverError 500 "Missing GEMINI_API_KEY", st)
  else if (!jsTruthy req.message || !jsIsString req.message) = true then
    (ChatResult.badRequest "Missing or invalid \x27message\x27", st)
  else
    let m := jsAsString req.message
    let st1 := pruneExpiredSessions tPrune st
    match sessionLookup req.sessionId st1 with
    | some (s, d) =>
      let st2 := storeSet st1 s ⟨d.chat, tUse⟩
      match eng.send d.chat m with
      | Except.ok t => (ChatResult.ok (t.getD "No response.") s, st2)
      | Except.error e => (engineErrorResult e, st2)
    | none =>
      match eng.create (sysInstructionConfig req.systemInstruction) with
      | Except.error e => (engineErrorResult e, st1)
      | Except.ok h =>
        match eng.send h m with
        | Except.error e => (engineErrorResult e, st1)
        | Except.ok t =>
          (ChatResult.ok (t.getD "No response.") freshId,
           storeSet st1 freshId ⟨h, tUse⟩)

/-- HTTP outcome of POST /api/chat/end: always `200 {ok:true}`. -/
structure EndResponse where
  status : Nat
  ok : Bool
deriving DecidableEq, Repr

/-- The POST /api/chat/end handler (src/server.js lines 148–154): delete the
entry when `sessionId` is a truthy string, always answer `{ok:true}`. -/
def endHandler (sid : JsVal) (st : Store) : EndResponse × Store :=
  match sid with
  | JsVal.str s =>
    if s = "" then (⟨200, true⟩, st) else (⟨200, true⟩, storeDelete st s)
  | _ => (⟨200, true⟩, st)

/-- Character-code test for `[A-Z]`. -/
def isUpperAlpha (c : Char) : Bool := 65 ≤ c.toNat && c.toNat ≤ 90

/-- Character-code test for `\d`. -/
def isDigitCh (c : Char) : Bool := 48 ≤ c.toNat && c.toNat ≤ 57

/-- Character-code test for `[A-Z0-9]`. -/
def isUpperAlnum (c : Char) : Bool := isUpperAlpha c || isDigitCh c

/-- Whitespace removed by JavaScript `String.prototype.trim` (the cases
relevant here: space, tab, line terminators, NBSP, BOM). -/
def isJsSpace (c : Char) : Bool :=
  c.toNat = 32 || c.toNat = 9 || c.toNat = 10 || c.toNat = 13 ||
  c.toNat = 11 || c.toNat = 12 || c.toNat = 160 || c.toNat = 65279

/-- `String.prototype.trim`. -/
def jsTrim (s : List Char) : List Char :=
  ((s.dropWhile isJsSpace).reverse.dropWhile isJsSpace).reverse

/-- ASCII action of `String.prototype.toUpperCase` on one character. -/
def jsToUpperChar (c : Char) : Char :=
  if 97 ≤ c.toNat && c.toNat ≤ 122 then Char.ofNat (c.toNat - 32) else c

/-- `String.prototype.toUpperCase`. -/
def jsToUpper (s : List Char) : List Char := s.map jsToUpperChar

/-- The regex `^[A-Z][A-Z0-9]+-\d+$` (src/server.js line 62) as a total
matcher: an uppercase letter, one or more uppercase alphanumerics, a
hyphen, one or more digits. Since `-` is in neither character class the
greedy scan is equivalent to the regex. -/
def jiraKeyPattern : List Char → Bool
  | [] => false
  | c :: rest =>
    isUpperAlpha c &&
    (match rest.dropWhile isUpperAlnum with
     | '-' :: ds => (rest.takeWhile isUpperAlnum ≠ []) && (ds ≠ []) && ds.all isDigitCh
     | _ => false)

/-- Outcome of GET /api/jira/issue before/instead of the network call:
a 400, a 503 (Jira unconfigured), or an attempted fetch with the
normalized key. -/
inductive JiraResult where
  | badRequest (msg : String)
  | unconfigured
  | fetchAttempt (key : List Char)
deriving DecidableEq, Repr

/-- The GET /api/jira/issue handler up to the fetch (src/server.js lines
59–70): `key = (req.query.key || "").toString().trim().toUpperCase()`,
400 when empty, 400 when the regex fails, 503 when Jira is unconfigured,
otherwise the network call is attempted. -/
def jiraIssueHandler (configured : Bool) (keyParam : Option (List Char)) : JiraResult :=
  let key := jsToUpper (jsTrim (keyParam.getD []))
  if key = [] then JiraResult.badRequest "query param key required"
  else if jiraKeyPattern key = false then JiraResult.badRequest "Invalid Jira key"
  else if configured = false then JiraResult.unconfigured
  else JiraResult.fetchAttempt key

/-- A concrete engine whose calls always succeed (used as witness data). -/
def okEngine : Engine :=
  ⟨fun _ => Except.ok 7, fun _ _ => Except.ok (some "hello")⟩

/-- A concrete engine whose calls always throw a bare error (used as
counterexample data). -/
def failEngine : Engine :=
  ⟨fun _ => Except.error ⟨none, none⟩, fun _ _ => Except.error ⟨none, none⟩⟩

lemma storeGet_storeSet_self (st : Store) (s : String) (d : SessionData) :
    storeGet (storeSet st s d) s = some d := by
  induction st with
  | nil => simp [storeSet, storeGet]
  | cons p rest ih =>
    by_cases h : p.1 = s
    · simp [storeSet, storeGet, h]
    · simp [storeSet, storeGet, h, ih]

lemma mem_storeDelete_of_ne (st : Store) (s : String) (p : String × SessionData)
    (hne : p.1 ≠ s) : p ∈ st → p ∈ storeDelete st s := by
  induction st with
  | nil => intro hp; simp at hp
  | cons q rest ih =>
    intro hp
    rcases List.mem_cons.mp hp with hp | hp
    · subst hp
      simp [storeDelete, hne]
    · by_cases h : q.1 = s
      · simpa [storeDelete, h] using hp
      · simp [storeDelete, h, ih hp]

lemma storeGet_eq_none_of_not_mem (st : Store) (s : String)
    (h : s ∉ st.map Prod.fst) : storeGet st s = none := by
  induction st with
  | nil => rfl
  | cons q rest ih =>
    simp only [List.map_cons, List.mem_cons] at h
    push_neg at h
    have hne : q.1 ≠ s := fun hq => h.1 hq.symm
    simp [storeGet, hne, ih h.2]

lemma not_mem_keys_storeDelete (st : Store) (s : String)
    (hnd : (st.map Prod.fst).Nodup) : s ∉ (storeDelete st s).map Prod.fst := by
  induction st with
  | nil => simp [storeDelete]
  | cons q rest ih =>
    simp only [List.map_cons, List.nodup_cons] at hnd
    by_cases h : q.1 = s
    · simpa [storeDelete, h] using fun hmem => hnd.1 (h ▸ hmem)
    · simp only [storeDelete, if_neg h, List.map_cons, List.mem_cons]
      push_neg
      exact ⟨fun hq => h hq.symm, ih hnd.2⟩

lemma storeDelete_eq_self_of_not_mem (st : Store) (s : String)
    (h : s ∉ st.map Prod.fst) : storeDelete st s = st := by
  induction st with
  | nil => rfl
  | cons q rest ih =>
    simp only [List.map_cons, List.mem_cons] at h
    push_neg at h
    have hne : q.1 ≠ s := fun hq => h.1 hq.symm
    simp [storeDelete, hne, ih h.2]

lemma storeGet_storeDelete_self (st : Store) (s : String)
    (hnd : (st.map Prod.fst).Nodup) : storeGet (storeDelete st s) s = none :=
  storeGet_eq_none_of_not_mem _ _ (not_mem_keys_storeDelete st s hnd)

lemma mem_pruneExpiredSessions (now : Int) (st : Store) (p : String × SessionData) :
    p ∈ pruneExpiredSessions now st ↔
      p ∈ st ∧ ¬(now - p.2.lastUsed > SESSION_TTL_MS) := by
  simp only [pruneExpiredSessions, List.mem_filter]
  constructor
  · rintro ⟨hmem, hcond⟩
    refine ⟨hmem, ?_⟩
    by_contra hgt
    simp [hgt] at hcond
  · rintro ⟨hmem, hle⟩
    exact ⟨hmem, by simp [hle]⟩

lemma pruneExpiredSessions_sublist (now : Int) (st : Store) :
    (pruneExpiredSessions now st).Sublist st :=
  List.filter_sublist st

lemma pruneExpiredSessions_idem (now : Int) (st : Store) :
    pruneExpiredSessions now (pruneExpiredSessions now st) =
      pruneExpiredSessions now st := by
  simp only [pruneExpiredSessions, List.filter_filter]
  congr 1
  funext p
  by_cases h : now - p.2.lastUsed > SESSION_TTL_MS <;> simp [h]

lemma keys_pruneExpiredSessions_subset (now : Int) (st : Store) :
    ((pruneExpiredSessions now st).map Prod.fst) ⊆ st.map Prod.fst :=
  List.Sublist.subset (List.Sublist.map _ (pruneExpiredSessions_sublist now st))

lemma storeGet_pruneExpiredSessions_expired (now : Int) (st : Store) (s : String)
    (d : SessionData) (hnd : (st.map Prod.fst).Nodup)
    (hget : storeGet st s = some d)
    (hexp : now - d.lastUsed > SESSION_TTL_MS) :
    storeGet (pruneExpiredSessions now st) s = none := by
  induction st with
  | nil => simp [storeGet] at hget
  | cons q rest ih =>
    simp only [List.map_cons, List.nodup_cons] at hnd
    by_cases h : q.1 = s
    · have hd : q.2 = d := by simpa [storeGet, h] using hget
      have hdrop : pruneExpiredSessions now (q :: rest) = pruneExpiredSessions now rest := by
        simp [pruneExpiredSessions, hd ▸ hexp]
      rw [hdrop]
      exact storeGet_eq_none_of_not_mem _ _
        (fun hmem => hnd.1 (h ▸ keys_pruneExpiredSessions_subset now rest hmem))
    · have hget' : storeGet rest s = some d := by simpa [storeGet, h] using hget
      by_cases hq : now - q.2.lastUsed > SESSION_TTL_MS
      · simpa [pruneExpiredSessions, hq] using ih hnd.2 hget'
      · have : pruneExpiredSessions now (q :: rest) =
            q :: pruneExpiredSessions now rest := by
          simp [pruneExpiredSessions, hq]
        rw [this]
        simpa [storeGet, h] using ih hnd.2 hget'

lemma chatHandler_reuse_eq (eng : Engine) (f : String) (tP tU : Int)
    (m s : String) (si : JsVal) (st : Store) (d : SessionData)
    (hm : m ≠ "") (hs : s ≠ "")
    (hget : storeGet (pruneExpiredSessions tP st) s = some d) :
    chatHandler true eng f tP tU ⟨JsVal.str m, JsVal.str s, si⟩ st =
      ((match eng.send d.chat m with
        | Except.ok t => ChatResult.ok (t.getD "No response.") s
        | Except.error e => engineErrorResult e),
       storeSet (pruneExpiredSessions tP st) s ⟨d.chat, tU⟩) := by
  have hlook : sessionLookup (JsVal.str s) (pruneExpiredSessions tP st) = some (s, d) := by
    simp [sessionLookup, hs, hget]
  simp only [chatHandler, jsTruthy, jsIsString, jsAsString]
  simp only [hm, hlook]
  cases hsend : eng.send d.chat m <;> simp [hsend, hm]

lemma chatHandler_create_eq (eng : Engine) (f : String) (tP tU : Int)
    (req : ChatRequest) (st : Store)
    (hm : jsTruthy req.message = true) (hstr : jsIsString req.message = true)
    (hlook : sessionLookup req.sessionId (pruneExpiredSessions tP st) = none) :
    chatHandler true eng f tP tU req st =
      (match eng.create (sysInstructionConfig req.systemInstruction) with
       | Except.error e => (engineErrorResult e, pruneExpiredSessions tP st)
       | Except.ok h =>
         match eng.send h (jsAsString req.message) with
         | Except.error e => (engineErrorResult e, pruneExpiredSessions tP st)
         | Except.ok t =>
           (ChatResult.ok (t.getD "No response.") f,
            storeSet (pruneExpiredSessions tP st) f ⟨h, tU⟩)) := by
  simp [chatHandler, hm, hstr, hlook]

lemma chatHandler_valid_not_badRequest (eng : Engine) (f : String) (tP tU : Int)
    (req : ChatRequest) (st : Store)
    (hm : jsTruthy req.message = true) (hstr : jsIsString req.message = true)
    (msg : String) :
    (chatHandler true eng f tP tU req st).1 ≠ ChatResult.badRequest msg := by
  simp only [chatHandler, hm, hstr]
  simp only [Bool.not_true, Bool.or_self]
  rcases hl : sessionLookup req.sessionId (pruneExpiredSessions tP st) with _ | ⟨s, d⟩
  · rcases hc : eng.create (sysInstructionConfig req.systemInstruction) with e | h
    · simp [hl, hc, engineErrorResult]
    · rcases hs2 : eng.send h (jsAsString req.message) with e | t
      · simp [hl, hc, hs2, engineErrorResult]
      · simp [hl, hc, hs2]
  · rcases hs2 : eng.send d.chat (jsAsString req.message) with e | t
    · simp [hl, hs2, engineErrorResult]
    · simp [hl, hs2]

/-- C1 counterexample: a reuse request on which the engine call raises
still mutates `lastUsed` — the session stored under "s" had `lastUsed =
100`, the engine throws, the response is the 500 error, and yet the store
now records `lastUsed = 500` (the current time), not 100: the state is not
left unchanged on error. -/
theorem c1_lastUsed_mutated_on_engine_error :
    (chatHandler true failEngine "f" 100 500
        ⟨JsVal.str "hi", JsVal.str "s", JsVal.undef⟩ [("s", ⟨0, 100⟩)]).1
      = ChatResult.serverError 500 "Gemini request failed." ∧
    (chatHandler true failEngine "f" 100 500
        ⟨JsVal.str "hi", JsVal.str "s", JsVal.undef⟩ [("s", ⟨0, 100⟩)]).2
      = [("s", ⟨0, 500⟩)] ∧
    ([("s", (⟨0, 500⟩ : SessionData))] : Store) ≠ [("s", ⟨0, 100⟩)] := by
  decide

/-- C1 amended: on a reuse of an existing session, `lastUsed` is set to the
current time BEFORE the engine's sendMessage call, so the timestamp is
updated whether the call succeeds or raises; on success the reply is
returned, on error the catch response — but in both cases the stored entry
for the session is `{chat, lastUsed := now}`. -/
theorem c1_amended_lastUsed_always_updated (eng : Engine) (f : String)
    (tP tU : Int) (m s : String) (si : JsVal) (st : Store) (d : SessionData)
    (hm : m ≠ "") (hs : s ≠ "")
    (hget : storeGet (pruneExpiredSessions tP st) s = some d) :
    (chatHandler true eng f tP tU ⟨JsVal.str m, JsVal.str s, si⟩ st).2
      = storeSet (pruneExpiredSessions tP st) s ⟨d.chat, tU⟩ ∧
    storeGet (chatHandler true eng f tP tU ⟨JsVal.str m, JsVal.str s, si⟩ st).2 s
      = some ⟨d.chat, tU⟩ ∧
    (∀ t, eng.send d.chat m = Except.ok t →
      (chatHandler true eng f tP tU ⟨JsVal.str m, JsVal.str s, si⟩ st).1
        = ChatResult.ok (t.getD "No response.") s) ∧
    (∀ e, eng.send d.chat m = Except.error e →
      (chatHandler true eng f tP tU ⟨JsVal.str m, JsVal.str s, si⟩ st).1
        = engineErrorResult e) := by
  rw [chatHandler_reuse_eq eng f tP tU m s si st d hm hs hget]
  refine ⟨rfl, storeGet_storeSet_self _ _ _, ?_, ?_⟩
  · intro t hsend
    simp [hsend]
  · intro e hsend
    simp [hsend]

theorem c1_amended_witness :
    (chatHandler true failEngine "f" 100 500
        ⟨JsVal.str "hi", JsVal.str "s", JsVal.undef⟩ [("s", ⟨0, 100⟩)]).2
      = storeSet (pruneExpiredSessions 100 [("s", ⟨0, 100⟩)]) "s" ⟨0, 500⟩ :=
  (c1_amended_lastUsed_always_updated failEngine "f" 100 500 "hi" "s"
    JsVal.undef [("s", ⟨0, 100⟩)] ⟨0, 100⟩ (by decide) (by decide) (by decide)).1

/-- C2 counterexample: with the LLM key configured, a request whose
`message` is the empty string — a string — is rejected with 400, because
the guard `!message || typeof message !== "string"` treats `""` as falsy.
The claim that no string message is rejected with 400 is therefore false. -/
theorem c2_empty_message_rejected :
    (chatHandler true okEngine "f" 0 0
        ⟨JsVal.str "", JsVal.undef, JsVal.undef⟩ []).1
      = ChatResult.badRequest "Missing or invalid \x27message\x27" := by
  decide

/-- C2 amended: for every POST /api/chat request with the LLM key
configured, the handler answers the 400 validation error exactly when the
body's `message` is missing, not a string, or the empty string (the guard
rejects every JS-falsy value); for every nonempty string message the
validation 400 is never produced. -/
theorem c2_amended_message_validation (eng : Engine) (f : String)
    (tP tU : Int) (req : ChatRequest) (st : Store) :
    (chatHandler true eng f tP tU req st).1
        = ChatResult.badRequest "Missing or invalid \x27message\x27"
      ↔ ¬∃ s : String, req.message = JsVal.str s ∧ s ≠ "" := by
  constructor
  · intro hbad ⟨s, hmsg, hs⟩
    have h1 : jsTruthy req.message = true := by simp [jsTruthy, hmsg, hs]
    have h2 : jsIsString req.message = true := by simp [jsIsString, hmsg]
    exact chatHandler_valid_not_badRequest eng f tP tU req st h1 h2 _ hbad
  · intro hnone
    have hcond : (!jsTruthy req.message || !jsIsString req.message) = true := by
      cases hmsg : req.message with
      | str s =>
        by_cases hs : s = ""
        · simp [jsTruthy, jsIsString, hs]
        · exact absurd ⟨s, hmsg, hs⟩ hnone
      | num n => simp [jsTruthy, jsIsString]
      | jsBool b => simp [jsTruthy, jsIsString]
      | null => simp [jsTruthy, jsIsString]
      | undef => simp [jsTruthy, jsIsString]
    simp [chatHandler, hcond]

theorem c2_amended_witness :
    (chatHandler true okEngine "f" 0 0
        ⟨JsVal.null, JsVal.undef, JsVal.undef⟩ []).1
      = ChatResult.badRequest "Missing or invalid \x27message\x27" :=
  (c2_amended_message_validation okEngine "f" 0 0
      ⟨JsVal.null, JsVal.undef, JsVal.undef⟩ []).mpr
    (by rintro ⟨s, h, hs⟩; cases h)

/-- C4: for every store and every time `now`, the sweep removes exactly the
sessions with `now - lastUsed` strictly above the 1-hour TTL (3,600,000 ms),
keeps every other entry — id, handle and lastUsed — unchanged (the survivors
form a sublist of the original store), and a session idle for exactly the
TTL is retained. -/
theorem c4_sweep_exact (now : Int) (st : Store) :
    SESSION_TTL_MS = 3600000 ∧
    (pruneExpiredSessions now st).Sublist st ∧
    (∀ p : String × SessionData,
      p ∈ pruneExpiredSessions now st ↔
        p ∈ st ∧ ¬(now - p.2.lastUsed > SESSION_TTL_MS)) ∧
    (∀ p : String × SessionData, p ∈ st → now - p.2.lastUsed = SESSION_TTL_MS →
      p ∈ pruneExpiredSessions now st) := by
  refine ⟨by decide, pruneExpiredSessions_sublist now st,
    mem_pruneExpiredSessions now st, ?_⟩
  intro p hp heq
  exact (mem_pruneExpiredSessions now st p).mpr ⟨hp, by omega⟩

theorem c4_sweep_witness :
    ("a", (⟨0, 0⟩ : SessionData)) ∈ pruneExpiredSessions 3600000 [("a", ⟨0, 0⟩)] :=
  ((c4_sweep_exact 3600000 [("a", ⟨0, 0⟩)]).2.2.1 _).mpr ⟨by decide, by decide⟩

/-- C5: a POST /api/chat request bearing a sessionId that maps to a live
(post-sweep) session reuses the stored handle: the engine is sent the
message on that handle, the response carries the same sessionId, the
session's lastUsed becomes now, and the outcome is identical for every
`systemInstruction` value and for every `create` implementation — no new
handle is created and no configuration is applied. -/
theorem c5_reuse_branch (eng : Engine) (f : String) (tP tU : Int)
    (m s : String) (si : JsVal) (st : Store) (d : SessionData) (t : Option String)
    (hm : m ≠ "") (hs : s ≠ "")
    (hget : storeGet (pruneExpiredSessions tP st) s = some d)
    (hsend : eng.send d.chat m = Except.ok t) :
    chatHandler true eng f tP tU ⟨JsVal.str m, JsVal.str s, si⟩ st
      = (ChatResult.ok (t.getD "No response.") s,
         storeSet (pruneExpiredSessions tP st) s ⟨d.chat, tU⟩) ∧
    storeGet (chatHandler true eng f tP tU ⟨JsVal.str m, JsVal.str s, si⟩ st).2 s
      = some ⟨d.chat, tU⟩ ∧
    (∀ si' : JsVal, ∀ cr : Option String → Except EngErr Nat,
      chatHandler true ⟨cr, eng.send⟩ f tP tU ⟨JsVal.str m, JsVal.str s, si'⟩ st
        = chatHandler true eng f tP tU ⟨JsVal.str m, JsVal.str s, si⟩ st) := by
  have hmain := chatHandler_reuse_eq eng f tP tU m s si st d hm hs hget
  refine ⟨?_, ?_, ?_⟩
  · rw [hmain, hsend]
  · rw [hmain]
    exact storeGet_storeSet_self _ _ _
  · intro si' cr
    rw [hmain, chatHandler_reuse_eq ⟨cr, eng.send⟩ f tP tU m s si' st d hm hs hget]

theorem c5_reuse_witness :
    chatHandler true okEngine "f" 100 500
        ⟨JsVal.str "hi", JsVal.str "s", JsVal.str "sys"⟩ [("s", ⟨3, 100⟩)]
      = (ChatResult.ok "hello" "s",
         storeSet (pruneExpiredSessions 100 [("s", ⟨3, 100⟩)]) "s" ⟨3, 500⟩) :=
  (c5_reuse_branch okEngine "f" 100 500 "hi" "s" (JsVal.str "sys")
    [("s", ⟨3, 100⟩)] ⟨3, 100⟩ (some "hello") (by decide) (by decide)
    (by decide) rfl).1

/-- C3 counterexample: neither POST /api/chat/end nor a validation-failing
POST /api/chat runs the expiry sweep. The store holds a session "a" with
`lastUsed = 0`; at time 3,600,001 the sweep would evict it; yet an end
request for another id leaves it in place, and a chat request with a
missing message leaves it in place too (returning the 400 without having
pruned), contradicting the claim that the sweep runs before every session
access including these requests. -/
theorem c3_no_sweep_outside_chat :
    (endHandler (JsVal.str "b") [("a", ⟨0, 0⟩)]).2 = [("a", ⟨0, 0⟩)] ∧
    pruneExpiredSessions 3600001 [("a", ⟨0, 0⟩)] = [] ∧
    (chatHandler true okEngine "f" 3600001 3600001
        ⟨JsVal.undef, JsVal.undef, JsVal.undef⟩ [("a", ⟨0, 0⟩)]).2
      = [("a", ⟨0, 0⟩)] ∧
    (chatHandler true okEngine "f" 3600001 3600001
        ⟨JsVal.undef, JsVal.undef, JsVal.undef⟩ [("a", ⟨0, 0⟩)]).1
      = ChatResult.badRequest "Missing or invalid \x27message\x27" := by
  decide

/-- C3 amended: the sweep runs only inside the POST /api/chat handler,
after the API-key and message validation and before the session
lookup-or-create — so a valid chat request behaves identically on a
pre-swept store, while a chat request that fails validation (or lacks the
key) leaves the store untouched, and POST /api/chat/end never sweeps: it
removes at most the named session, leaving every other (even expired)
entry in place. -/
theorem c3_amended_sweep_only_in_chat (eng : Engine) (f : String)
    (tP tU : Int) (req : ChatRequest) (st : Store) :
    (jsTruthy req.message = true → jsIsString req.message = true →
      chatHandler true eng f tP tU req st
        = chatHandler true eng f tP tU req (pruneExpiredSessions tP st)) ∧
    ((!jsTruthy req.message || !jsIsString req.message) = true →
      (chatHandler true eng f tP tU req st).2 = st) ∧
    (chatHandler false eng f tP tU req st).2 = st ∧
    (∀ sid : JsVal, ∀ p : String × SessionData, p ∈ st →
      JsVal.str p.1 ≠ sid → p ∈ (endHandler sid st).2) := by
  refine ⟨?_, ?_, ?_, ?_⟩
  · intro h1 h2
    simp [chatHandler, h1, h2, pruneExpiredSessions_idem]
  · intro hbad
    simp [chatHandler, hbad]
  · simp [chatHandler]
  · intro sid p hp hne
    cases sid with
    | str s =>
      by_cases hs : s = ""
      · simpa [endHandler, hs] using hp
      · have hps : p.1 ≠ s := fun h => hne (by rw [h])
        simpa [endHandler, hs] using mem_storeDelete_of_ne st s p hps hp
    | num n => simpa [endHandler] using hp
    | jsBool b => simpa [endHandler] using hp
    | null => simpa [endHandler] using hp
    | undef => simpa [endHandler] using hp

theorem c3_amended_witness :
    ("a", (⟨0, 0⟩ : SessionData)) ∈
      (endHandler (JsVal.str "b") [("a", ⟨0, 0⟩)]).2 :=
  (c3_amended_sweep_only_in_chat okEngine "f" 3600001 3600001
      ⟨JsVal.undef, JsVal.undef, JsVal.undef⟩ [("a", ⟨0, 0⟩)]).2.2.2
    (JsVal.str "b") ("a", ⟨0, 0⟩) (by decide) (by decide)

/-- C6: a session idle for more than the TTL is gone from the store after
the sweep, and a subsequent valid chat request that reuses its id takes the
creation branch: a new handle is requested from the engine, a freshly
generated id (distinct from the supplied one, by collision-resistance of
the generator) is returned, and the new session is inserted with
`lastUsed = now`. -/
theorem c6_expired_then_recreate (eng : Engine) (f : String) (tP tU : Int)
    (m s : String) (si : JsVal) (st : Store) (d : SessionData)
    (h : Nat) (t : Option String)
    (hnd : (st.map Prod.fst).Nodup)
    (hget : storeGet st s = some d)
    (hexp : tP - d.lastUsed > SESSION_TTL_MS)
    (hm : m ≠ "") (hs : s ≠ "")
    (hcreate : eng.create (sysInstructionConfig si) = Except.ok h)
    (hsend : eng.send h m = Except.ok t)
    (hf : f ≠ s) :
    storeGet (pruneExpiredSessions tP st) s = none ∧
    chatHandler true eng f tP tU ⟨JsVal.str m, JsVal.str s, si⟩ st
      = (ChatResult.ok (t.getD "No response.") f,
         storeSet (pruneExpiredSessions tP st) f ⟨h, tU⟩) ∧
    f ≠ s ∧
    storeGet (chatHandler true eng f tP tU ⟨JsVal.str m, JsVal.str s, si⟩ st).2 f
      = some ⟨h, tU⟩ := by
  have hgone : storeGet (pruneExpiredSessions tP st) s = none :=
    storeGet_pruneExpiredSessions_expired tP st s d hnd hget hexp
  have hlook : sessionLookup (JsVal.str s) (pruneExpiredSessions tP st) = none := by
    simp [sessionLookup, hs, hgone]
  have hmain := chatHandler_create_eq eng f tP tU ⟨JsVal.str m, JsVal.str s, si⟩ st
    (by simp [jsTruthy, hm]) (by simp [jsIsString]) hlook
  simp only [jsAsString] at hmain
  simp only [hcreate, hsend] at hmain
  exact ⟨hgone, hmain, hf, by rw [hmain]; exact storeGet_storeSet_self _ _ _⟩

theorem c6_expired_witness :
    storeGet (pruneExpiredSessions 3600001 [("s", ⟨0, 0⟩)]) "s" = none ∧
    chatHandler true okEngine "f" 3600001 3600002
        ⟨JsVal.str "hi", JsVal.str "s", JsVal.undef⟩ [("s", ⟨0, 0⟩)]
      = (ChatResult.ok "hello" "f",
         storeSet (pruneExpiredSessions 3600001 [("s", ⟨0, 0⟩)]) "f" ⟨7, 3600002⟩) := by
  have h := c6_expired_then_recreate okEngine "f" 3600001 3600002 "hi" "s"
    JsVal.undef [("s", ⟨0, 0⟩)] ⟨0, 0⟩ 7 (some "hello")
    (by decide) (by decide) (by decide) (by decide) (by decide) rfl rfl (by decide)
  exact ⟨h.1, h.2.1⟩

/-- C7: POST /api/chat/end always answers 200 `{ok:true}` for every body —
missing, unknown or non-string sessionId included; when the supplied
sessionId is a (nonempty) string that maps to a session in a
duplicate-free store, exactly that entry is removed (the id no longer
resolves and every other entry survives); and the operation is idempotent:
a second identical call answers `{ok:true}` and leaves the store as after
the first. -/
theorem c7_end_handler (sid : JsVal) (st : Store) :
    (endHandler sid st).1 = ⟨200, true⟩ ∧
    ((st.map Prod.fst).Nodup →
      (∀ s d, sid = JsVal.str s → s ≠ "" → storeGet st s = some d →
        storeGet (endHandler sid st).2 s = none ∧
        ∀ p : String × SessionData, p ∈ st → p.1 ≠ s →
          p ∈ (endHandler sid st).2) ∧
      endHandler sid (endHandler sid st).2
        = (⟨200, true⟩, (endHandler sid st).2)) := by
  have hfst : ∀ (v : JsVal) (σ : Store), (endHandler v σ).1 = ⟨200, true⟩ := by
    intro v σ
    cases v with
    | str s => by_cases hs : s = "" <;> simp [endHandler, hs]
    | num n => rfl
    | jsBool b => rfl
    | null => rfl
    | undef => rfl
  refine ⟨hfst sid st, fun hnd => ⟨?_, ?_⟩⟩
  · rintro s d rfl hs hget
    constructor
    · simpa [endHandler, hs] using storeGet_storeDelete_self st s hnd
    · intro p hp hpne
      simpa [endHandler, hs] using mem_storeDelete_of_ne st s p hpne hp
  · cases sid with
    | str s =>
      by_cases hs : s = ""
      · simp [endHandler, hs]
      · have h1 : (endHandler (JsVal.str s) st).2 = storeDelete st s := by
          simp [endHandler, hs]
        have h2 : storeDelete (storeDelete st s) s = storeDelete st s :=
          storeDelete_eq_self_of_not_mem _ _ (not_mem_keys_storeDelete st s hnd)
        rw [h1]
        simp [endHandler, hs, h2]
    | num n => rfl
    | jsBool b => rfl
    | null => rfl
    | undef => rfl

theorem c7_end_witness :
    (endHandler (JsVal.str "a") [("a", ⟨1, 5⟩)]).1 = ⟨200, true⟩ ∧
    storeGet (endHandler (JsVal.str "a") [("a", ⟨1, 5⟩)]).2 "a" = none ∧
    endHandler (JsVal.str "a") (endHandler (JsVal.str "a") [("a", ⟨1, 5⟩)]).2
      = (⟨200, true⟩, (endHandler (JsVal.str "a") [("a", ⟨1, 5⟩)]).2) := by
  have h := c7_end_handler (JsVal.str "a") [("a", ⟨1, 5⟩)]
  have h2 := h.2 (by decide)
  exact ⟨h.1, (h2.1 "a" ⟨1, 5⟩ rfl (by decide) (by decide)).1, h2.2⟩

/-- C8: a valid chat request that does not resolve to a stored session
takes the creation branch: assuming the id generator returns a value not
previously issued, the 200 response carries exactly that fresh id, and the
store afterwards maps it to the newly created handle with
`lastUsed = now`. -/
theorem c8_creation_fresh_id (eng : Engine) (f : String) (tP tU : Int)
    (req : ChatRequest) (st : Store) (h : Nat) (t : Option String)
    (issued : List String)
    (hm : jsTruthy req.message = true) (hstr : jsIsString req.message = true)
    (hlook : sessionLookup req.sessionId (pruneExpiredSessions tP st) = none)
    (hcreate : eng.create (sysInstructionConfig req.systemInstruction) = Except.ok h)
    (hsend : eng.send h (jsAsString req.message) = Except.ok t)
    (hfresh : f ∉ issued) :
    (chatHandler true eng f tP tU req st).1
      = ChatResult.ok (t.getD "No response.") f ∧
    f ∉ issued ∧
    storeGet (chatHandler true eng f tP tU req st).2 f = some ⟨h, tU⟩ ∧
    (chatHandler true eng f tP tU req st).2
      = storeSet (pruneExpiredSessions tP st) f ⟨h, tU⟩ := by
  have hmain := chatHandler_create_eq eng f tP tU req st hm hstr hlook
  simp only [hcreate, hsend] at hmain
  rw [hmain]
  exact ⟨rfl, hfresh, storeGet_storeSet_self _ _ _, rfl⟩

theorem c8_creation_witness :
    (chatHandler true okEngine "fresh" 0 9
        ⟨JsVal.str "hi", JsVal.undef, JsVal.undef⟩ []).1
      = ChatResult.ok "hello" "fresh" ∧
    storeGet (chatHandler true okEngine "fresh" 0 9
        ⟨JsVal.str "hi", JsVal.undef, JsVal.undef⟩ []).2 "fresh"
      = some ⟨7, 9⟩ := by
  have h := c8_creation_fresh_id okEngine "fresh" 0 9
    ⟨JsVal.str "hi", JsVal.undef, JsVal.undef⟩ [] 7 (some "hello") ["old"]
    (by decide) (by decide) (by decide) rfl rfl (by decide)
  exact ⟨h.1, h.2.2.1⟩

/-- C10: in the creation path, the store insertion happens only after both
engine calls succeed: if creating the handle or sending the first message
raises, the handler answers the catch-branch error (which carries no
sessionId field) and the resulting store is exactly the swept input store —
no entry was added, and in particular every surviving entry was already
present before the request. -/
theorem c10_creation_atomic_on_failure (eng : Engine) (f : String)
    (tP tU : Int) (req : ChatRequest) (st : Store) (e : EngErr)
    (hm : jsTruthy req.message = true) (hstr : jsIsString req.message = true)
    (hlook : sessionLookup req.sessionId (pruneExpiredSessions tP st) = none)
    (hfail : eng.create (sysInstructionConfig req.systemInstruction) = Except.error e ∨
      (∃ h, eng.create (sysInstructionConfig req.systemInstruction) = Except.ok h ∧
        eng.send h (jsAsString req.message) = Except.error e)) :
    chatHandler true eng f tP tU req st
      = (ChatResult.serverError (e.status.getD 500)
          (e.message.getD "Gemini request failed."),
         pruneExpiredSessions tP st) ∧
    (∀ p : String × SessionData,
      p ∈ (chatHandler true eng f tP tU req st).2 → p ∈ st) := by
  have hmain := chatHandler_create_eq eng f tP tU req st hm hstr hlook
  have heq : chatHandler true eng f tP tU req st
      = (engineErrorResult e, pruneExpiredSessions tP st) := by
    rcases hfail with hc | ⟨h, hc, hsend⟩
    · rw [hmain, hc]
    · rw [hmain]
      simp only [hc, hsend]
  refine ⟨by rw [heq]; rfl, ?_⟩
  intro p hp
  rw [heq] at hp
  exact (pruneExpiredSessions_sublist tP st).subset hp

theorem c10_creation_witness :
    chatHandler true failEngine "f" 0 9
        ⟨JsVal.str "hi", JsVal.undef, JsVal.undef⟩ [("s", ⟨3, 0⟩)]
      = (ChatResult.serverError 500 "Gemini request failed.",
         pruneExpiredSessions 0 [("s", ⟨3, 0⟩)]) :=
  (c10_creation_atomic_on_failure failEngine "f" 0 9
    ⟨JsVal.str "hi", JsVal.undef, JsVal.undef⟩ [("s", ⟨3, 0⟩)] ⟨none, none⟩
    (by decide) (by decide) (by decide) (Or.inl rfl)).1

lemma jiraKeyPattern_chars {s : List Char} (hp : jiraKeyPattern s = true) :
    ∃ c body ds, s = (c :: body) ++ '-' :: ds ∧ isUpperAlpha c = true ∧
      (∀ x ∈ body, isUpperAlnum x = true) ∧ ds ≠ [] ∧
      (∀ x ∈ ds, isDigitCh x = true) := by
  cases s with
  | nil => simp [jiraKeyPattern] at hp
  | cons c rest =>
    rw [jiraKeyPattern, Bool.and_eq_true] at hp
    obtain ⟨hc, hm⟩ := hp
    split at hm
    · next ds heq =>
      rw [Bool.and_eq_true, Bool.and_eq_true] at hm
      obtain ⟨⟨htk, hds⟩, hall⟩ := hm
      refine ⟨c, rest.takeWhile isUpperAlnum, ds, ?_, hc, ?_, ?_, ?_⟩
      · have hsplit : rest.takeWhile isUpperAlnum ++ rest.dropWhile isUpperAlnum
            = rest := List.takeWhile_append_dropWhile isUpperAlnum rest
        rw [List.cons_append]
        congr 1
        rw [← heq]
        exact hsplit.symm
      · intro x hx
        exact List.mem_takeWhile_imp hx
      · simpa using hds
      · intro x hx
        exact List.all_eq_true.mp hall x hx
    · next => simp at hm

lemma jsToUpperChar_eq_self_of_lt {c : Char} (h : c.toNat < 97) :
    jsToUpperChar c = c := by
  have h1 : ¬ (97 ≤ c.toNat) := by omega
  simp [jsToUpperChar, h1]

lemma jsToUpper_of_pattern {s : List Char} (hp : jiraKeyPattern s = true) :
    jsToUpper s = s := by
  obtain ⟨c, body, ds, heq, hc, hbody, hds, hdig⟩ := jiraKeyPattern_chars hp
  subst heq
  have hfix : ∀ x ∈ (c :: body) ++ '-' :: ds, jsToUpperChar x = id x := by
    intro x hx
    show jsToUpperChar x = x
    apply jsToUpperChar_eq_self_of_lt
    rcases List.mem_append.mp hx with hx | hx
    · rcases List.mem_cons.mp hx with rfl | hx
      · simp [isUpperAlpha] at hc
        omega
      · have hb := hbody x hx
        simp [isUpperAlnum, isUpperAlpha, isDigitCh] at hb
        omega
    · rcases List.mem_cons.mp hx with rfl | hx
      · decide
      · have hd := hdig x hx
        simp [isDigitCh] at hd
        omega
  unfold jsToUpper
  rw [List.map_congr_left hfix, List.map_id]

lemma jsTrim_eq_self {s : List Char}
    (h1 : ∀ c, s.head? = some c → isJsSpace c = false)
    (h2 : ∀ c, s.getLast? = some c → isJsSpace c = false) :
    jsTrim s = s := by
  cases s with
  | nil => rfl
  | cons a l =>
    have ha : isJsSpace a = false := h1 a rfl
    unfold jsTrim
    rw [List.dropWhile_cons, ha]
    simp only [Bool.false_eq_true, if_false]
    rcases hrev : (a :: l).reverse with _ | ⟨b, t⟩
    · exact absurd hrev (by simp)
    · have hb : isJsSpace b = false := by
        apply h2
        rw [← List.head?_reverse, hrev]
        rfl
      have hdrop : List.dropWhile isJsSpace (b :: t) = b :: t := by
        rw [List.dropWhile_cons, hb]
        simp
      rw [hdrop, ← hrev, List.reverse_reverse]

lemma jsTrim_of_pattern {s : List Char} (hp : jiraKeyPattern s = true) :
    jsTrim s = s := by
  obtain ⟨c, body, ds, heq, hc, hbody, hds, hdig⟩ := jiraKeyPattern_chars hp
  subst heq
  apply jsTrim_eq_self
  · intro x hx
    simp only [List.cons_append, List.head?_cons, Option.some.injEq] at hx
    subst hx
    simp [isUpperAlpha] at hc
    simp [isJsSpace]
    omega
  · intro x hx
    rcases List.exists_cons_of_ne_nil hds with ⟨d0, ds', rfl⟩
    rw [List.getLast?_append_of_ne_nil _ (by simp)] at hx
    rw [List.getLast?_cons_cons] at hx
    have hmem : x ∈ d0 :: ds' := List.mem_of_getLast?_eq_some hx
    have hd := hdig x hmem
    simp [isDigitCh] at hd
    simp [isJsSpace]
    omega

/-- C9 counterexample: the request `key=abc-123` does not match
`^[A-Z][A-Z0-9]+-\d+$`, yet the handler does not answer 400: the key is
uppercased before the regex test, so with Jira configured the fetch is
attempted (and without configuration the answer is 503) — refuting "400
for every key that does not match the pattern". -/
theorem c9_lowercase_key_accepted :
    jiraKeyPattern (['a', 'b', 'c', '-', '1', '2', '3']) = false ∧
    jiraIssueHandler true (some ['a', 'b', 'c', '-', '1', '2', '3'])
      = JiraResult.fetchAttempt ['A', 'B', 'C', '-', '1', '2', '3'] ∧
    jiraIssueHandler false (some ['a', 'b', 'c', '-', '1', '2', '3'])
      = JiraResult.unconfigured := by
  decide

/-- C9 amended: GET /api/jira/issue answers 400, before any network call,
exactly when the key — after JavaScript trim and toUpperCase — is empty or
fails `^[A-Z][A-Z0-9]+-\d+$` (so matching is effectively case-insensitive
and whitespace-tolerant); a key already matching the pattern is never
rejected with 400; and `key=notakey` is rejected with 400 whether or not
Jira is configured. -/
theorem c9_amended_key_validation (configured : Bool) (k : Option (List Char)) :
    ((∃ msg, jiraIssueHandler configured k = JiraResult.badRequest msg) ↔
      jiraKeyPattern (jsToUpper (jsTrim (k.getD []))) = false) ∧
    (∀ s : List Char, k = some s → jiraKeyPattern s = true →
      ∀ msg, jiraIssueHandler configured k ≠ JiraResult.badRequest msg) ∧
    jiraIssueHandler configured (some ['n', 'o', 't', 'a', 'k', 'e', 'y'])
      = JiraResult.badRequest "Invalid Jira key" := by
  refine ⟨?_, ?_, ?_⟩
  · by_cases h0 : jsToUpper (jsTrim (k.getD [])) = []
    · constructor
      · intro _
        rw [h0]
        rfl
      · intro _
        exact ⟨"query param key required", by simp [jiraIssueHandler, h0]⟩
    · cases hpat : jiraKeyPattern (jsToUpper (jsTrim (k.getD []))) with
      | false =>
        constructor
        · intro _
          rfl
        · intro _
          exact ⟨"Invalid Jira key", by simp [jiraIssueHandler, h0, hpat]⟩
      | true =>
        constructor
        · rintro ⟨msg, hbad⟩
          simp only [jiraIssueHandler, h0, hpat] at hbad
          simp at hbad
          cases configured <;> simp at hbad
        · intro hfalse
          simp [hpat] at hfalse
  · rintro s rfl hpat msg
    have hup := jsToUpper_of_pattern hpat
    have htr := jsTrim_of_pattern hpat
    have hne : s ≠ [] := by
      rintro rfl
      simp [jiraKeyPattern] at hpat
    intro hbad
    simp only [jiraIssueHandler, Option.getD_some, htr, hup, hne, hpat] at hbad
    simp [hne] at hbad
    cases configured <;> simp at hbad
  · cases configured <;> decide

theorem c9_amended_witness :
    jiraIssueHandler true (some ['A', 'B', '-', '1'])
      ≠ JiraResult.badRequest "Invalid Jira key" :=
  (c9_amended_key_validation true (some ['A', 'B', '-', '1'])).2.1
    ['A', 'B', '-', '1'] rfl (by decide) "Invalid Jira key"
